import Mathlib

/-!
Verification of the conic-apps/launcher install/launch core against its
specification.  Rust functions from the repository are shallowly embedded as
Lean definitions; machine integers (`u64`, `i32`) are modelled as `Nat`/`Int`,
fallible operations as `Option`/`Except`, and filesystem or network effects as
explicit parameters and state values.
-/

namespace Conic

/-! ## crates/download/src/lib.rs — chunk calculation -/

/-- Checked subtraction on `Nat`, modelling `u64` subtraction: `none` models an
underflow (a panic in the source's debug builds). -/
def checkedSub (a b : Nat) : Option Nat :=
  if b ≤ a then some (a - b) else none

/-- Fallible elementwise traversal (the `Option` analogue of building up a
`Vec` in a loop in which each iteration may fail). -/
def optionMapAll {α β : Type} (g : α → Option β) : List α → Option (List β)
  | [] => some []
  | a :: l => (g a).bind fun b => (optionMapAll g l).map fun bs => b :: bs

/-- Embedding of `calculate_chunks_length` (crates/download/src/lib.rs).
The source picks a chunk count from the content length, then emits
`(i * chunk_size, (i + 1) * chunk_size - 1)` ranges with the last range ending
at `length - 1`.  Note that the source's middle branch literally reads
`length < 100` (not `100 * 1000 * 1000`), which is unreachable after the
`length < 30 * 1000 * 1000` test failed. -/
def calculate_chunks_length (length : Nat) : Option (List (Nat × Nat)) :=
  if length < 4 * 1000 * 1000 then
    (checkedSub length 1).map fun e => [(0, e)]
  else
    let chunk_count :=
      if length < 30 * 1000 * 1000 then length / (2 * 1000 * 1000) + 1
      else if length < 100 then length / (4 * 1000 * 1000) + 1
      else length / (10 * 1000 * 1000) + 1
    let chunk_size := length / chunk_count
    optionMapAll
      (fun i =>
        if i = chunk_count - 1 then
          (checkedSub length 1).map fun e => (i * chunk_size, e)
        else
          (checkedSub ((i + 1) * chunk_size) 1).map fun e => (i * chunk_size, e))
      (List.range chunk_count)

/-- The chunk count picked by `calculate_chunks_length` for lengths of at
least 4 MB (the source's `chunk_count` local). -/
def chunkCount (length : Nat) : Nat :=
  if length < 30 * 1000 * 1000 then length / (2 * 1000 * 1000) + 1
  else if length < 100 then length / (4 * 1000 * 1000) + 1
  else length / (10 * 1000 * 1000) + 1

/-! ## A model of `serde_json::Value`

Objects are association lists; lookups return the first binding (a
`serde_json` map has unique keys, so this is faithful). -/

inductive Json where
  | null
  | bool (b : Bool)
  | num (n : Int)
  | str (s : String)
  | arr (elems : List Json)
  | obj (fields : List (String × Json))

/-- `Map::get` on a `serde_json` object. -/
def Json.objGet : List (String × Json) → String → Option Json
  | [], _ => none
  | (k, v) :: rest, key => if k = key then some v else Json.objGet rest key

/-- `value[key]` on a `serde_json::Value`: `Null` for a missing key or a
non-object receiver. -/
def Json.index (j : Json) (key : String) : Json :=
  match j with
  | .obj fields => (Json.objGet fields key).getD .null
  | _ => .null

def Json.as_str : Json → Option String
  | .str s => some s
  | _ => none

def Json.as_array : Json → Option (List Json)
  | .arr l => some l
  | _ => none

def Json.as_object : Json → Option (List (String × Json))
  | .obj f => some f
  | _ => none

def Json.as_bool : Json → Option Bool
  | .bool b => some b
  | _ => none

def Json.as_u64 : Json → Option Nat
  | .num n => if 0 ≤ n then some n.toNat else none
  | _ => none

/-! ## crates/platform — PLATFORM_INFO

The process-wide platform record is a parameter of the embedding.  `Regex`
matching of the `os.version` predicate is modelled by the total function
`regexMatch pattern text` (the source's `Regex::new(version).unwrap()` panic
on an invalid pattern is not reachable in any claim considered here). -/

structure PlatformInfo where
  os_family : String
  os_version : String
  arch : String
  regexMatch : String → String → Bool

/-! ## crates/version/src/checks.rs -/

/-- Embedding of `check_os`: every supplied `os` sub-predicate (name, version
regex, arch) must pass; missing or non-string entries pass vacuously. -/
def check_os (p : PlatformInfo) (rule : Json) : Bool :=
  match (rule.index "os").as_object with
  | some os =>
    let name_check_passed :=
      match Json.objGet os "name" with
      | some name =>
        match name.as_str with
        | some name => p.os_family == name
        | none => true
      | none => true
    let version_check_passed :=
      match Json.objGet os "version" with
      | some version =>
        match version.as_str with
        | some version => p.regexMatch version p.os_version
        | none => true
      | none => true
    let arch_check_passed :=
      match Json.objGet os "arch" with
      | some arch =>
        match arch.as_str with
        | some arch => p.arch == arch
        | none => true
      | none => true
    name_check_passed && version_check_passed && arch_check_passed
  | none => true

/-- One `Iterator::any` call on a (stateful) `slice::Iter`: consumes elements
up to and including the first match, returning the found flag together with
the remaining iterator. -/
def iterAny (key : String) : List String → Bool × List String
  | [] => (false, [])
  | y :: ys => if key == y then (true, ys) else iterAny key ys

/-- The body of `check_features`'s filter: the source builds
`enabled_features.iter()` once and reuses it across all feature keys, so each
key is searched only in the iterator's remaining suffix.  A key is kept when
the stateful `any` finds it and its value is literally `true`
(`as_bool().unwrap_or(false)`); `&&` evaluates `any` first either way. -/
def featuresFilterCount : List (String × Json) → List String → Nat
  | [], _ => 0
  | (k, v) :: rest, iter =>
    let found := iterAny k iter
    (if found.1 && (v.as_bool.getD false) then 1 else 0) + featuresFilterCount rest found.2

/-- Embedding of `check_features`: the rule's features pass when the kept
count equals the number of feature keys. -/
def check_features (rule : Json) (enabled_features : List String) : Bool :=
  match (rule.index "features").as_object with
  | some features => featuresFilterCount features enabled_features == features.length
  | none => true

/-- Embedding of `check_allowed`: empty rule list allows; otherwise the
verdict starts at disallow and every matching rule overwrites it with its
action; rules without a string `action` are skipped (`continue`). -/
def check_allowed (p : PlatformInfo) (rules : List Json)
    (enabled_features : List String) : Bool :=
  if rules.isEmpty then true
  else
    rules.foldl
      (fun allow rule =>
        match (rule.index "action").as_str with
        | none => allow
        | some action =>
          let action := action == "allow"
          let os_passed := check_os p rule
          let features_passed := check_features rule enabled_features
          if os_passed && features_passed then action else allow)
      false

/-- A Linux platform record (regex matching irrelevant to the claims using it). -/
def linuxPlatform : PlatformInfo :=
  { os_family := "linux", os_version := "6.1", arch := "x86_64",
    regexMatch := fun _ _ => false }

/-- A Windows platform record. -/
def windowsPlatform : PlatformInfo :=
  { os_family := "windows", os_version := "10.0", arch := "x86_64",
    regexMatch := fun _ _ => false }

/-- The claim's example rule list `[{action:allow}, {action:disallow, os:{name:"linux"}}]`. -/
def exampleRules : List Json :=
  [Json.obj [("action", Json.str "allow")],
   Json.obj [("action", Json.str "disallow"),
             ("os", Json.obj [("name", Json.str "linux")])]]

/-- A rule demanding two enabled features: `{action:allow, features:{a:true, b:true}}`. -/
def twoFeatureRule : Json :=
  Json.obj [("action", Json.str "allow"),
            ("features", Json.obj [("a", Json.bool true), ("b", Json.bool true)])]

/-! ## crates/version/src/argument.rs -/

structure Arguments where
  game : Option (List Json)
  jvm : Option (List Json)

structure ResolvedArguments where
  game : List String
  jvm : List String
deriving DecidableEq

/-- `serde_json::from_value::<Vec<String>>`: succeeds only when every element
is a string. -/
def stringList : List Json → Option (List String)
  | [] => some []
  | Json.str s :: rest => (stringList rest).map (fun l => s :: l)
  | _ => none

/-- Embedding of `resolve_argument`: a literal string is emitted as-is; an
object's `rules` are evaluated and, when allowed, its `value` (string or
string array) is emitted; everything else yields nothing.  A failed
`Vec<String>` deserialisation falls back to the empty list
(`unwrap_or_default`). -/
def resolve_argument (p : PlatformInfo) (argument : Json)
    (enabled_features : List String) : List String :=
  match argument with
  | .str x => [x]
  | _ =>
    match (argument.index "rules").as_array with
    | none => []
    | some rules =>
      if check_allowed p rules enabled_features then
        match argument.index "value" with
        | .arr l => (stringList l).getD []
        | .str x => [x]
        | _ => []
      else []

/-- Embedding of `Arguments::to_resolved`. -/
def Arguments.to_resolved (a : Arguments) (p : PlatformInfo)
    (enabled_features : List String) : ResolvedArguments :=
  { game := (a.game.getD []).flatMap fun arg => resolve_argument p arg enabled_features
    jvm := (a.jvm.getD []).flatMap fun arg => resolve_argument p arg enabled_features }

/-! ## crates/version/src/library.rs -/

structure LibraryDownloadInfo where
  sha1 : Option String
  size : Option Nat
  url : String
  path : String
deriving DecidableEq

structure ResolvedLibrary where
  download_info : LibraryDownloadInfo
  is_native_library : Bool
deriving DecidableEq

/-- Failure modes of version resolution: `jsonErr` models a `serde_json`
deserialisation error propagated with `?`, `panicked` models a
`serde_json::Map` index panic on a missing key, `badVersionJson` the final
"Bad Version JSON" validation failure. -/
inductive ResolveErr where
  | jsonErr
  | panicked
  | badVersionJson
deriving DecidableEq

/-- `serde_json::Map` indexing (`map[key]`): panics when the key is absent. -/
def mapIndex (fields : List (String × Json)) (key : String) : Except ResolveErr Json :=
  match Json.objGet fields key with
  | some v => .ok v
  | none => .error .panicked

/-- An optional-string field under `serde_json::from_value`. -/
def parseOptString : Option Json → Except ResolveErr (Option String)
  | none => .ok none
  | some Json.null => .ok none
  | some (Json.str s) => .ok (some s)
  | some _ => .error .jsonErr

/-- An optional-`u64` field under `serde_json::from_value`. -/
def parseOptU64 : Option Json → Except ResolveErr (Option Nat)
  | none => .ok none
  | some Json.null => .ok none
  | some (Json.num n) => if 0 ≤ n then .ok (some n.toNat) else .error .jsonErr
  | some _ => .error .jsonErr

/-- A required-string field under `serde_json::from_value`. -/
def parseString : Option Json → Except ResolveErr String
  | some (Json.str s) => .ok s
  | _ => .error .jsonErr

/-- `serde_json::from_value::<LibraryDownloadInfo>` on the `artifact` object. -/
def parseDownloadInfo (j : Json) : Except ResolveErr LibraryDownloadInfo :=
  match j with
  | .obj fields => do
    let sha1 ← parseOptString (Json.objGet fields "sha1")
    let size ← parseOptU64 (Json.objGet fields "size")
    let url ← parseString (Json.objGet fields "url")
    let path ← parseString (Json.objGet fields "path")
    .ok { sha1 := sha1, size := size, url := url, path := path }
  | _ => .error .jsonErr

/-- Character-level split, mirroring `str::split` for the single-character
separators used by the source (`split(":")`); `[""]` on the empty string. -/
def splitChars (sep : Char) : List Char → List (List Char)
  | [] => [[]]
  | c :: rest =>
    match splitChars sep rest with
    | [] => if c = sep then [[], []] else [[c]]
    | g :: gs => if c = sep then [] :: g :: gs else (c :: g) :: gs

/-- `str::split(":").collect::<Vec<_>>()`. -/
def splitOnColon (s : String) : List String :=
  (splitChars (':') s.data).map fun l => String.mk l

/-- `str::replace(".", "/")` (single-character needle, so character-wise). -/
def replaceDotSlash (s : String) : String :=
  String.mk (s.data.map fun c => if c = ('.') then ('/') else c)

/-- One iteration of `Libraries::to_resolved`'s loop: `ok none` models
`continue` (the library is dropped), `ok (some lib)` a `result.push`. -/
def resolveOneLibrary (p : PlatformInfo) (library : Json) :
    Except ResolveErr (Option ResolvedLibrary) :=
  let skipByRules :=
    match (library.index "rules").as_array with
    | some rules => ! check_allowed p rules []
    | none => false
  if skipByRules then .ok none
  else
    match ((library.index "downloads").index "classifiers").as_object,
        (library.index "natives").as_object with
    | some classifiers, some natives => do
      let nativeVal ← mapIndex natives p.os_family
      match nativeVal.as_str with
      | none => .ok none
      | some classifier_key => do
        let classifierVal ← mapIndex classifiers classifier_key
        match classifierVal.as_object with
        | none => .ok none
        | some classifier => do
          let urlVal ← mapIndex classifier "url"
          match urlVal.as_str with
          | none => .ok none
          | some url => do
            let pathVal ← mapIndex classifier "path"
            match pathVal.as_str with
            | none => .ok none
            | some path => do
              let sha1Val ← mapIndex classifier "sha1"
              let sizeVal ← mapIndex classifier "size"
              .ok (some
                { download_info :=
                    { sha1 := sha1Val.as_str, size := sizeVal.as_u64,
                      url := url, path := path }
                  is_native_library := true })
    | _, _ =>
      if ((library.index "downloads").index "artifact").as_object.isSome then do
        let info ← parseDownloadInfo ((library.index "downloads").index "artifact")
        .ok (some { download_info := info, is_native_library := false })
      else
        match (library.index "name").as_str with
        | none => .ok none
        | some name =>
          let parts := splitOnColon name
          if h : parts.length = 3 then
            let package := replaceDotSlash (parts.get ⟨0, by omega⟩)
            let version := parts.get ⟨2, by omega⟩
            let name := parts.get ⟨1, by omega⟩
            let url := ((library.index "url").as_str).getD
              "https://libraries.minecraft.net/"
            let path := package ++ "/" ++ name ++ "/" ++ version ++ "/" ++
              name ++ "-" ++ version ++ ".jar"
            .ok (some
              { download_info :=
                  { sha1 := none, size := none, url := url ++ path, path := path }
                is_native_library := false })
          else .ok none

/-- `Libraries::join`: `splice(0..0, libraries)` prepends the new block. -/
def Libraries.join (libs : List Json) (new : List Json) : List Json :=
  new ++ libs

/-- Embedding of `Libraries::to_resolved`: resolve elementwise in order,
dropping skipped libraries and propagating errors. -/
def Libraries.to_resolved (p : PlatformInfo) : List Json → Except ResolveErr (List ResolvedLibrary)
  | [] => .ok []
  | library :: rest => do
    let head ← resolveOneLibrary p library
    let tail ← Libraries.to_resolved p rest
    match head with
    | some lib => .ok (lib :: tail)
    | none => .ok tail

/-! ## crates/version/src/lib.rs

The inheritance walk of `Version::resolve` reads parent descriptors from
disk; the embedding receives that chain as an explicit list (`self` first,
root last, exactly the source's `versions` vector).  The bookkeeping fields
`inheritances` and `path_chain`, which only record the walked ids and paths,
are omitted.  The typed `Logging` payloads are kept as raw `Json` since the
resolver only moves them around. -/

structure AssetIndex where
  size : Nat
  url : String
  id : String
  total_size : Nat
deriving DecidableEq

structure Download where
  sha1 : String
  size : Nat
  url : String
deriving DecidableEq

structure JavaVersion where
  component : String
  major_version : Int
deriving DecidableEq

/-- The source's custom `Default` impl for `JavaVersion`. -/
def JavaVersion.default : JavaVersion :=
  { component := "jre-legacy", major_version := 8 }

structure Version where
  id : String
  time : Option String
  version_type : Option String
  release_time : Option String
  inherits_from : Option String
  minimum_launcher_version : Option Int
  minecraft_arguments : Option String
  arguments : Option Arguments
  main_class : Option String
  libraries : Option (List Json)
  jar : Option String
  asset_index : Option AssetIndex
  assets : Option String
  downloads : Option (List (String × Download))
  client : Option String
  server : Option String
  logging : Option (List (String × Json))
  java_version : Option JavaVersion
  client_version : Option String

structure ResolvedVersion where
  id : String
  arguments : ResolvedArguments
  main_class : Option String
  asset_index : Option AssetIndex
  assets : Option String
  downloads : List (String × Download)
  libraries : List ResolvedLibrary
  minimum_launcher_version : Int
  release_time : Option String
  time : Option String
  version_type : Option String
  logging : List (String × Json)
  java_version : JavaVersion

/-- `ResolvedVersion::default()`. -/
def ResolvedVersion.default : ResolvedVersion :=
  { id := "", arguments := { game := [], jvm := [] }, main_class := none,
    asset_index := none, assets := none, downloads := [], libraries := [],
    minimum_launcher_version := 0, release_time := none, time := none,
    version_type := none, logging := [], java_version := JavaVersion.default }

/-- `HashMap::insert` on an association-list map: overwrite an existing
binding in place, otherwise append. -/
def assocInsert {β : Type} (m : List (String × β)) (k : String) (v : β) :
    List (String × β) :=
  if (m.lookup k).isSome then
    m.map fun kv => if kv.1 = k then (k, v) else kv
  else m ++ [(k, v)]

/-- `HashMap::extend`. -/
def assocExtend {β : Type} (m d : List (String × β)) : List (String × β) :=
  d.foldl (fun m kv => assocInsert m kv.1 kv.2) m

/-- The hard-coded legacy default game arguments (`DEFAULT_GAME_ARGS`). -/
def DEFAULT_GAME_ARGS : List String :=
  ["--username", "${auth_player_name}", "--version", "${version_name}",
   "--gameDir", "${game_directory}", "--assetsDir", "${assets_root}",
   "--assetIndex", "${asset_index}", "--uuid", "${auth_uuid}",
   "--accessToken", "${auth_access_token}", "--clientId", "${clientid}",
   "--xuid", "${auth_xuid}", "--userType", "${user_type}",
   "--versionType", "${version_type}", "--width", "${resolution_width}",
   "--height", "${resolution_height}"]

/-- The hard-coded legacy default JVM arguments (`DEFAULT_JVM_ARGS`). -/
def DEFAULT_JVM_ARGS : List String :=
  ["\"-Djava.library.path=${natives_directory}\"",
   "\"-Dminecraft.launcher.brand=${launcher_name}\"",
   "\"-Dminecraft.launcher.version=${launcher_version}\"",
   "\"-Dfile.encoding=UTF-8\"",
   "\"-Dsun.stdout.encoding=UTF-8\"",
   "\"-Dsun.stderr.encoding=UTF-8\"",
   "\"-Djava.rmi.server.useCodebaseOnly=true\"",
   "\"-XX:MaxInlineSize=420\"",
   "\"-XX:-UseAdaptiveSizePolicy\"",
   "\"-XX:-OmitStackTraceInFastThrow\"",
   "\"-XX:-DontCompileHugeMethods\"",
   "\"-Dcom.sun.jndi.rmi.object.trustURLCodebase=false\"",
   "\"-Dcom.sun.jndi.cosnaming.object.trustURLCodebase=false\"",
   "\"-Dlog4j2.formatMsgNoLookups=true\"",
   "-cp", "${classpath}"]

/-- `ResolvedVersion::join_arguments`: below launcher version 21 the
argument lists are overwritten with the hard-coded legacy defaults;
otherwise the supplied lists, resolved, are appended. -/
def ResolvedVersion.join_arguments (r : ResolvedVersion) (p : PlatformInfo)
    (arguments : Option Arguments) (enabled_features : List String) : ResolvedVersion :=
  if r.minimum_launcher_version < 21 then
    { r with arguments := { jvm := DEFAULT_JVM_ARGS, game := DEFAULT_GAME_ARGS } }
  else
    match arguments with
    | some arguments =>
      let resolved := arguments.to_resolved p enabled_features
      { r with arguments :=
          { jvm := r.arguments.jvm ++ resolved.jvm,
            game := r.arguments.game ++ resolved.game } }
    | none => r

def ResolvedVersion.join_id (r : ResolvedVersion) (id : String) : ResolvedVersion :=
  if id ≠ "" then { r with id := id } else r

def ResolvedVersion.join_minimum_launcher_version (r : ResolvedVersion)
    (version : Option Int) : ResolvedVersion :=
  { r with minimum_launcher_version := max (version.getD 0) r.minimum_launcher_version }

/-- The source's `join_release_time` assigns `self.time` (not
`self.release_time`). -/
def ResolvedVersion.join_release_time (r : ResolvedVersion)
    (release_time : Option String) : ResolvedVersion :=
  if release_time.isSome then { r with time := release_time } else r

def ResolvedVersion.join_time (r : ResolvedVersion) (time : Option String) : ResolvedVersion :=
  if time.isSome then { r with time := time } else r

/-- Both branches of the source's `join_logging` assign the supplied map. -/
def ResolvedVersion.join_logging (r : ResolvedVersion)
    (logging : Option (List (String × Json))) : ResolvedVersion :=
  match logging with
  | some logging => { r with logging := logging }
  | none => r

def ResolvedVersion.join_assets (r : ResolvedVersion) (assets : Option String) :
    ResolvedVersion :=
  if assets.isSome then { r with assets := assets } else r

def ResolvedVersion.join_version_type (r : ResolvedVersion)
    (version_type : Option String) : ResolvedVersion :=
  if version_type.isSome then { r with version_type := version_type } else r

def ResolvedVersion.join_main_class (r : ResolvedVersion)
    (main_class : Option String) : ResolvedVersion :=
  if main_class.isSome then { r with main_class := main_class } else r

def ResolvedVersion.join_java_version (r : ResolvedVersion)
    (java_version : Option JavaVersion) : ResolvedVersion :=
  match java_version with
  | some java_version => { r with java_version := java_version }
  | none => r

def ResolvedVersion.join_asset_index (r : ResolvedVersion)
    (asset_index : Option AssetIndex) : ResolvedVersion :=
  if asset_index.isSome then { r with asset_index := asset_index } else r

def ResolvedVersion.join_downloads (r : ResolvedVersion)
    (downloads : Option (List (String × Download))) : ResolvedVersion :=
  match downloads with
  | some downloads => { r with downloads := assocExtend r.downloads downloads }
  | none => r

/-- The join chain applied to one popped descriptor, in source order, up to
(but not including) the final `join_arguments` call. -/
def mergePreArgs (r : ResolvedVersion) (v : Version) : ResolvedVersion :=
  ((((((((((r.join_id v.id).join_minimum_launcher_version
    v.minimum_launcher_version).join_release_time v.release_time).join_time
    v.time).join_logging v.logging).join_assets v.assets).join_version_type
    v.version_type).join_main_class v.main_class).join_java_version
    v.java_version).join_asset_index v.asset_index).join_downloads
    v.downloads

/-- The full join chain applied to one popped descriptor, in source order. -/
def mergeVersion (p : PlatformInfo) (enabled_features : List String)
    (r : ResolvedVersion) (v : Version) : ResolvedVersion :=
  (mergePreArgs r v).join_arguments p v.arguments enabled_features

/-- The `if let Some(libraries) = version.libraries { libraries_raw.join(..) }`
part of the loop body. -/
def libJoinStep (acc : List Json) (v : Version) : List Json :=
  match v.libraries with
  | some libs => Libraries.join acc libs
  | none => acc

/-- One iteration of the `while let Some(version) = versions.pop()` loop. -/
def resolveStep (p : PlatformInfo) (enabled_features : List String)
    (acc : ResolvedVersion × List Json) (v : Version) : ResolvedVersion × List Json :=
  (mergeVersion p enabled_features acc.1 v, libJoinStep acc.2 v)

/-- Embedding of `Version::resolve`.  `self :: ancestors` is the source's
`versions` vector (user descriptor first, root last); `pop` processes it
back to front, so the fold runs over the reversed list. -/
def Version.resolveChain (p : PlatformInfo) (self : Version)
    (ancestors : List Version) (enabled_features : List String) :
    Except ResolveErr ResolvedVersion :=
  let versions := self :: ancestors
  let acc := versions.reverse.foldl (resolveStep p enabled_features)
    (ResolvedVersion.default, [])
  match Libraries.to_resolved p acc.2 with
  | .error e => .error e
  | .ok libs =>
    let resolved := { acc.1 with libraries := libs }
    if resolved.main_class.isNone || resolved.asset_index.isNone ||
        resolved.downloads.isEmpty || resolved.libraries.isEmpty then
      .error .badVersionJson
    else .ok resolved

/-! ## crates/launch/src/arguments.rs — `format`

`format` runs `Regex::new(r"\$\{(.*?)}").replace_all(template, |caps| …)`.
The replacement closure looks the captured name up in the substitution map
and falls back to the bare name (`args.get(&caps[1]).unwrap_or(&key)`); the
resulting value — the fallback key included — is double-quoted when it
contains a space and the argument is a game argument, never for JVM
arguments.
The lazy capture `(.*?)` takes the characters up to the first `}`, and `.`
does not match a newline, so a candidate `${` with no `}` before a newline
or the end of input stays literal.  The scanner below is single pass: a
failed candidate's buffer can never contain a later match start, because a
new `${…}` inside it would need a `}` before the newline that made the
candidate fail. -/

/-- The replacement for one captured key: `let value = args.get(&key)
.unwrap_or(&key)`, then the space-and-game-argument quoting applied to
`value` whether it came from the map or from the fallback. -/
def replacementFor (args : List (String × String)) (is_game_option : Bool)
    (key : String) : String :=
  let value := (args.lookup key).getD key
  if value.data.contains (' ') && is_game_option then "\"" ++ value ++ "\""
  else value

/-- Scanner state: outside any candidate, just after a `$`, or inside
`${` with the key characters buffered in reverse. -/
inductive ScanState where
  | plain
  | dollar
  | key (buf : List Char)

/-- The `replace_all` scan over the template's characters. -/
def formatGo (args : List (String × String)) (is_game_option : Bool) :
    List Char → ScanState → List Char
  | [], .plain => []
  | [], .dollar => [('$')]
  | [], .key buf => ('$') :: ('{') :: buf.reverse
  | c :: rest, .plain =>
    if c = ('$') then formatGo args is_game_option rest .dollar
    else c :: formatGo args is_game_option rest .plain
  | c :: rest, .dollar =>
    if c = ('{') then formatGo args is_game_option rest (.key [])
    else if c = ('$') then ('$') :: formatGo args is_game_option rest .dollar
    else ('$') :: c :: formatGo args is_game_option rest .plain
  | c :: rest, .key buf =>
    if c = ('}') then
      (replacementFor args is_game_option (String.mk buf.reverse)).data ++
        formatGo args is_game_option rest .plain
    else if c = ('\n') then
      ('$') :: ('{') :: (buf.reverse ++ ('\n') :: formatGo args is_game_option rest .plain)
    else formatGo args is_game_option rest (.key (c :: buf))

/-- Embedding of `format` (crates/launch/src/arguments.rs). -/
def format (template : String) (args : List (String × String))
    (is_game_option : Bool) : String :=
  String.mk (formatGo args is_game_option template.data ScanState.plain)

/-- A version descriptor with every optional field absent. -/
def emptyVersion : Version :=
  { id := "", time := none, version_type := none, release_time := none,
    inherits_from := none, minimum_launcher_version := none,
    minecraft_arguments := none, arguments := none, main_class := none,
    libraries := none, jar := none, asset_index := none, assets := none,
    downloads := none, client := none, server := none, logging := none,
    java_version := none, client_version := none }

/-- A root (deepest ancestor) descriptor carrying everything the final
validation requires, with one mod-loader-coordinate library `g:a:1`. -/
def rootVersion : Version :=
  { emptyVersion with
    id := "1.20.1",
    minimum_launcher_version := some 14,
    main_class := some "net.minecraft.client.main.Main",
    asset_index := some { size := 1, url := "https://example/a.json", id := "5", total_size := 1 },
    downloads := some [("client", { sha1 := "abc", size := 1, url := "https://example/c.jar" })],
    libraries := some [Json.obj [("name", Json.str "g:a:1")]] }

/-- A derived (user-supplied) descriptor with one library `g:b:1` and its own
argument lists (discarded on the legacy path). -/
def childVersion : Version :=
  { emptyVersion with
    id := "mod",
    inherits_from := some "1.20.1",
    arguments := some
      { game := some [Json.str "--extraGame"], jvm := some [Json.str "-Xextra"] },
    libraries := some [Json.obj [("name", Json.str "g:b:1")]] }

/-! ## crates/launch/src/complete.rs — completeness markers

`complete_files` consults only `std::fs::metadata(..).is_ok()` on the two
marker files (`.conic-assets-ok` / `.conic-libraries-ok`) and writes the
literal `"ok"` after a verification pass; the marker's content and the
current time are never read (the source carries the 10-day expiry only as a
`TODO` comment).  The filesystem is modelled by the two markers' contents;
whether the verification passes (`complete_assets_files` /
`complete_libraries_files`) ran is recorded as booleans. -/

structure MarkerState where
  assetsMarker : Option String
  librariesMarker : Option String
deriving DecidableEq

structure CompleteFilesResult where
  assetsVerificationRan : Bool
  librariesVerificationRan : Bool
  finalState : MarkerState
deriving DecidableEq

/-- Embedding of `complete_files`; `now` is the current epoch-seconds clock,
which the source never consults. -/
def complete_files (s : MarkerState) (now : Nat) : CompleteFilesResult :=
  let assetsRan := s.assetsMarker.isNone
  let librariesRan := s.librariesMarker.isNone
  { assetsVerificationRan := assetsRan
    librariesVerificationRan := librariesRan
    finalState :=
      { assetsMarker := if assetsRan then some "ok" else s.assetsMarker
        librariesMarker := if librariesRan then some "ok" else s.librariesMarker } }

/-! ## crates/install/src/lib.rs — install task handle

`cmd_create_install_task` rejects with `AlreadyInstalling` when the stored
handle is present, otherwise stores a fresh `AbortHandle`, awaits the
install future and returns its result WITHOUT clearing the slot;
`cmd_cancel_install_task` aborts whatever is stored and sets the slot to
`None`.  Handles are modelled as `Nat` ids and the awaited install future's
outcome as a boolean carried by the `create` operation; channels, events and
the concurrent mid-flight abort are elided (the claim concerns calls that
complete without being cancelled). -/

inductive InstallOp where
  | create (handle : Nat) (outcome : Bool)
  | cancel
deriving DecidableEq

inductive InstallReply where
  | finished (ok : Bool)
  | alreadyInstalling
  | cancelled
deriving DecidableEq

/-- One IPC command against the plugin state (the `current_task` slot). -/
def installStep (state : Option Nat) : InstallOp → InstallReply × Option Nat
  | .create handle outcome =>
    if state.isSome then (.alreadyInstalling, state)
    else (.finished outcome, some handle)
  | .cancel => (.cancelled, none)

/-- A sequence of IPC commands. -/
def installRun (state : Option Nat) : List InstallOp → List InstallReply × Option Nat
  | [] => ([], state)
  | op :: ops =>
    let r := installStep state op
    let rs := installRun r.2 ops
    (r.1 :: rs.1, rs.2)

/-! ## crates/download/src/lib.rs — download engine

The HTTP side is modelled by a `Server` per URL: the body streamed for a
plain `GET`, the `Accept-Ranges` advertisement consulted by the `HEAD`
probe (`is_support_range`; `none` models a failed probe), and the bytes
streamed for a `Range: bytes=lo-hi` request.  Bytes are `Nat`s.  Hashers
are a `HashModel` giving the hex digest of a byte sequence — the source's
incremental `update` calls over streamed chunks equal the digest of the
concatenated content, so the embedding hashes the final content.  Progress
counters, the speed sampler thread and the throttling sleeps do not affect
any result and are elided. -/

inductive Checksum where
  | sha1 (h : String)
  | sha256 (h : String)
  | none
deriving DecidableEq

inductive DownloadType where
  | versionInfo
  | assets
  | libraries
  | mojangJava
  | authlibInjector
  | unknown
deriving DecidableEq

structure DownloadTask where
  url : String
  file : String
  size_bytes : Option Nat
  checksum : Checksum
  dtype : DownloadType
deriving DecidableEq

structure HashModel where
  sha1Hex : List Nat → String
  sha256Hex : List Nat → String

/-- `Hasher::from(&checksum)` fed the streamed content, then
`Hasher::verify(&checksum)`: digests compare against the recorded hex
string; `Checksum::None` verifies vacuously. -/
def hasherVerify (m : HashModel) (content : List Nat) : Checksum → Bool
  | .sha1 h => m.sha1Hex content == h
  | .sha256 h => m.sha256Hex content == h
  | .none => true

structure Server where
  supportsRange : Option Bool
  body : List Nat
  rangeBody : Nat → Nat → List Nat

inductive DlError where
  | sha1Missmatch (url : String)
  | chunkLengthMismatch
deriving DecidableEq

/-- Embedding of the public single-file `download`: the file is created and
every received chunk written BEFORE the checksum verification, and a
mismatch returns `Err(Sha1Missmatch(url))` without touching the written
file.  The result pairs the call's outcome with the target file's final
content (`none` would mean no file). -/
def download (m : HashModel) (srv : Server) (task : DownloadTask) :
    Except DlError Unit × Option (List Nat) :=
  let content := srv.body
  if hasherVerify m content task.checksum then (.ok (), some content)
  else (.error (.sha1Missmatch task.url), some content)

inductive DlResult where
  | ok (file : List Nat)
  | err (e : DlError) (file : Option (List Nat))
  | underflow
deriving DecidableEq

/-- `download_slice` outcome for one range: the streamed byte count must
equal `hi - lo + 1` (`ChunkLengthMismatch` otherwise); no hashing happens
in a slice. -/
def download_slice_ok (srv : Server) (r : Nat × Nat) : Bool :=
  (srv.rangeBody r.1 r.2).length == r.2 - r.1 + 1

/-- `inner_chunk_download_executer`: ranges from `calculate_chunks_length`
(whose `u64` underflow at length 0 is the `underflow` outcome); each slice
retries up to 10 times, which is irrelevant against a deterministic server;
when every slice streams the right byte count the call returns `Ok` WITHOUT
any checksum verification, the target containing the slices laid out at
their offsets — the in-order concatenation, since the ranges partition
`[0, length-1]`.  On a slice failure the partial on-disk state depends on
the interleaving of the 4 workers and is left undetermined (`none`). -/
def inner_chunk_download_executer (srv : Server) (length : Nat) : DlResult :=
  match calculate_chunks_length length with
  | Option.none => .underflow
  | some chunks =>
    if chunks.all (download_slice_ok srv) then
      .ok ((chunks.map fun r => srv.rangeBody r.1 r.2).flatten)
    else .err .chunkLengthMismatch Option.none

/-- The sequential branch of `inner_download_executer`: stream, write,
fsync, then verify; a mismatch leaves the file in place. -/
def seqDownloadExecuter (m : HashModel) (srv : Server) (task : DownloadTask) : DlResult :=
  let content := srv.body
  if hasherVerify m content task.checksum then .ok content
  else .err (.sha1Missmatch task.url) (some content)

/-- Embedding of `inner_download_executer`: the chunked path is taken iff
the task carries a size AND the HEAD probe answers `Accept-Ranges: bytes`
(`is_support_range(url) == Some(true)`). -/
def inner_download_executer (m : HashModel) (srv : Server) (task : DownloadTask) : DlResult :=
  match task.size_bytes with
  | some length =>
    if srv.supportsRange == some true then inner_chunk_download_executer srv length
    else seqDownloadExecuter m srv task
  | Option.none => seqDownloadExecuter m srv task

/-- The network environment of `download_concurrent`: per-URL servers, the
digest model, `Url::parse(..)?.host_str()` for `classify` (`error` = parse
failure, `ok none` = no host), and `str::replace` used by
`assignment_mirror` to rewrite the canonical prefix (a parameter; the
claims evaluated here use empty mirror lists, so it is never invoked). -/
structure NetEnv where
  hash : HashModel
  server : String → Server
  hostOf : String → Except Unit (Option String)
  urlReplace : String → String → String → String

/-- Embedding of `DownloadTask::classify`. -/
def DownloadTask.classify (env : NetEnv) (t : DownloadTask) : Except Unit DownloadTask :=
  if t.dtype ≠ .unknown then .ok t
  else
    match env.hostOf t.url with
    | .error _ => .error ()
    | .ok Option.none => .ok t
    | .ok (some host) =>
      let download_type :=
        if host = "resources.download.minecraft.net" then DownloadType.assets
        else if host = "libraries.minecraft.net" then DownloadType.libraries
        else DownloadType.unknown
      .ok { t with dtype := download_type }

/-- The pre-filter predicate of `filter_existing_and_verified_files`: keep a
task iff its file is absent/unreadable, has no checksum
(`verify_checksum_from_read` returns `None`), or hashes to a mismatch. -/
def keepTask (m : HashModel) (fs : String → Option (List Nat)) (t : DownloadTask) : Bool :=
  match fs t.file with
  | Option.none => true
  | some content =>
    match t.checksum with
    | .none => true
    | c => !(hasherVerify m content c)

/-- Embedding of `filter_existing_and_verified_files` (the parallel filter
keeps relative order). -/
def filter_existing_and_verified_files (m : HashModel)
    (fs : String → Option (List Nat)) (tasks : List DownloadTask) : List DownloadTask :=
  tasks.filter (keepTask m fs)

structure MirrorConfig where
  libraries : List String
  assets : List String

structure DownloadConfig where
  max_connections : Nat
  max_download_speed : Nat
  mirror : MirrorConfig

/-- `MirrorUsage::get_*_mirror` in the sequentialised model: between tasks
every in-flight counter is back to zero (each attempt increments then
decrements), so `min_by` sees all-equal counts and its pick depends on
`HashMap` iteration order; the model picks the first non-disabled mirror in
configuration order.  The claims evaluated against this definition use
empty mirror lists, where the result is `none` regardless of order. -/
def pickMirror (mirrors disabled : List String) : Option String :=
  mirrors.find? fun mir => !(disabled.contains mir)

/-- Embedding of `DownloadTask::assignment_mirror`. -/
def assignment_mirror (env : NetEnv) (cfg : MirrorConfig) (disabled : List String)
    (t : DownloadTask) : Option (DownloadTask × String) :=
  match t.dtype with
  | .libraries =>
    (pickMirror cfg.libraries disabled).map fun mirror =>
      ({ t with url := env.urlReplace t.url "https://libraries.minecraft.net" mirror },
        mirror)
  | .assets =>
    (pickMirror cfg.assets disabled).map fun mirror =>
      ({ t with url :=
          env.urlReplace t.url "https://resources.download.minecraft.net" mirror },
        mirror)
  | _ => Option.none

/-- One attempt of `inner_download_future`'s loop body. -/
def attemptOnce (env : NetEnv) (cfg : DownloadConfig) (task : DownloadTask)
    (disabled : List String) : DlResult × Option String :=
  match assignment_mirror env cfg.mirror disabled task with
  | some (t2, mirror) => (inner_download_executer env.hash (env.server t2.url) t2, some mirror)
  | Option.none => (inner_download_executer env.hash (env.server task.url) task, Option.none)

/-- Embedding of `inner_download_future`: up to 5 attempts, a failing
attempt's mirror joining the task-local blacklist; the fuel counts the
remaining attempts (started at 5; the `0` case is unreachable). -/
def inner_download_future (env : NetEnv) (cfg : DownloadConfig) (task : DownloadTask) :
    Nat → List String → DlResult
  | 0, _ => .err .chunkLengthMismatch Option.none
  | n + 1, disabled =>
    let ar := attemptOnce env cfg task disabled
    match ar.1 with
    | .ok content => .ok content
    | .underflow => .underflow
    | .err e f =>
      let disabled2 :=
        match ar.2 with
        | some mirror => disabled ++ [mirror]
        | Option.none => disabled
      if n = 0 then .err e f else inner_download_future env cfg task n disabled2

/-- The `try_for_each_concurrent` body over all classified tasks: the stream
completes successfully iff every task's future returned `Ok`.  Completion
order is interleaving-dependent but each task's result and its file's final
content are not (per-URL deterministic servers); the model sequentialises
and applies every task's write, which is exact whenever the overall result
is success. -/
def runTasks (env : NetEnv) (cfg : DownloadConfig)
    (fs : String → Option (List Nat)) :
    List DownloadTask → Bool × (String → Option (List Nat))
  | [] => (true, fs)
  | t :: rest =>
    let r := inner_download_future env cfg t 5 []
    let fs2 : String → Option (List Nat) :=
      match r with
      | .ok content => fun path => if path = t.file then some content else fs path
      | .err _ (some content) => fun path => if path = t.file then some content else fs path
      | _ => fs
    let rec2 := runTasks env cfg fs2 rest
    (match r with | .ok _ => rec2.1 | _ => false, rec2.2)

/-- `Except` analogue of `optionMapAll` (collecting a `Result` from an
iterator of `Result`s). -/
def exceptMapAll {ε α β : Type} (g : α → Except ε β) : List α → Except ε (List β)
  | [] => .ok []
  | a :: l => do
    let b ← g a
    let bs ← exceptMapAll g l
    .ok (b :: bs)

/-- Embedding of `download_concurrent`: pre-filter against the current
filesystem, classify every survivor (a URL parse error aborts the call
before any download), then run the bounded concurrent stream.  Returns
whether the call succeeded together with the final filesystem. -/
def download_concurrent (env : NetEnv) (cfg : DownloadConfig)
    (fs : String → Option (List Nat)) (tasks : List DownloadTask) :
    Bool × (String → Option (List Nat)) :=
  let kept := filter_existing_and_verified_files env.hash fs tasks
  match exceptMapAll (DownloadTask.classify env) kept with
  | .error _ => (false, fs)
  | .ok classified => runTasks env cfg fs classified

/-- A constant-digest hash model for the chunked-path counterexample: every
content hashes to `"ff"`, so any recorded checksum other than `"ff"`
mismatches every content. -/
def cxHash : HashModel :=
  { sha1Hex := fun _ => "ff", sha256Hex := fun _ => "ff" }

/-- A range-supporting server answering `hi - lo + 1` bytes of `9`s to every
range request. -/
def cxServer : Server :=
  { supportsRange := some true, body := [7],
    rangeBody := fun lo hi => List.replicate (hi + 1 - lo) 9 }

/-- A task carrying a size and a SHA-1 checksum `"00"` that no content
matches under `cxHash`. -/
def cxTask : DownloadTask :=
  { url := "https://example/f", file := "f", size_bytes := some 10,
    checksum := .sha1 "00", dtype := .unknown }

def cxEnv : NetEnv :=
  { hash := cxHash, server := fun _ => cxServer,
    hostOf := fun _ => .ok (some "example"),
    urlReplace := fun u _ _ => u }

def cxCfg : DownloadConfig :=
  { max_connections := 100, max_download_speed := 0,
    mirror := { libraries := [], assets := [] } }

/-! ## Theorems -/

theorem optionMapAll_eq_some {α β : Type} (g : α → Option β) (f : α → β) :
    ∀ l : List α, (∀ a ∈ l, g a = some (f a)) → optionMapAll g l = some (l.map f) := by
  intro l
  induction l with
  | nil => intro _; rfl
  | cons a l ih =>
    intro hall
    have ha : g a = some (f a) := hall a (List.mem_cons_self a l)
    have hl : optionMapAll g l = some (l.map f) :=
      ih fun x hx => hall x (List.mem_cons_of_mem a hx)
    simp [optionMapAll, ha, hl, List.map_cons]

/-- C4: for content length 20_000_000 the code produces 11 chunks of size
1_818_181 with the last chunk `(18_181_810, 19_999_999)`, as the claim states;
but for a length between 30 MB and 100 MB (here 50_000_000) the code produces
`length / 10_000_000 + 1 = 6` chunks, not the claimed `length / 4_000_000 + 1
= 13`, because the branch guard reads `length < 100` instead of
`length < 100 * 1000 * 1000` and is dead code. -/
theorem c4_chunk_count_has_dead_branch :
    calculate_chunks_length 20000000 = some
      [(0, 1818180), (1818181, 3636361), (3636362, 5454542), (5454543, 7272723),
       (7272724, 9090904), (9090905, 10909085), (10909086, 12727266),
       (12727267, 14545447), (14545448, 16363628), (16363629, 18181809),
       (18181810, 19999999)] ∧
    (calculate_chunks_length 50000000).map List.length = some 6 ∧
    50000000 / 4000000 + 1 = 13 := by
  refine ⟨by decide, by decide, by decide⟩

theorem calculate_chunks_length_big (length : Nat) (h : ¬ length < 4 * 1000 * 1000) :
    calculate_chunks_length length =
      optionMapAll
        (fun i =>
          if i = chunkCount length - 1 then
            (checkedSub length 1).map fun e => (i * (length / chunkCount length), e)
          else
            (checkedSub ((i + 1) * (length / chunkCount length)) 1).map
              fun e => (i * (length / chunkCount length), e))
        (List.range (chunkCount length)) := by
  simp only [calculate_chunks_length, if_neg h, chunkCount]

theorem chunkCount_pos (length : Nat) : 0 < chunkCount length := by
  unfold chunkCount
  split
  · exact Nat.succ_pos _
  · split <;> exact Nat.succ_pos _

theorem chunkCount_le (length : Nat) (h : ¬ length < 4 * 1000 * 1000) :
    chunkCount length ≤ length := by
  have h2 : length / (2 * 1000 * 1000) < length := Nat.div_lt_self (by omega) (by omega)
  have h4 : length / (4 * 1000 * 1000) < length := Nat.div_lt_self (by omega) (by omega)
  have h10 : length / (10 * 1000 * 1000) < length := Nat.div_lt_self (by omega) (by omega)
  unfold chunkCount
  split
  · omega
  · split <;> omega

/-- C10: for every content length of at least 1, `calculate_chunks_length` is
total (no `u64` subtraction underflows) and the returned ranges partition
`[0, length - 1]`: the first range starts at `0`, each range starts one past
the previous range's end, and the last range ends at `length - 1`.  For length
`0` the computation underflows (modelled as `none`). -/
theorem c10_chunks_total_and_partition (length : Nat) (h : 1 ≤ length) :
    calculate_chunks_length 0 = none ∧
    ∃ chunks : List (Nat × Nat), calculate_chunks_length length = some chunks ∧
      0 < chunks.length ∧
      (∀ h0 : 0 < chunks.length, (chunks.get ⟨0, h0⟩).1 = 0) ∧
      (∀ hl : chunks.length - 1 < chunks.length,
        (chunks.get ⟨chunks.length - 1, hl⟩).2 = length - 1) ∧
      (∀ i, ∀ hi : i + 1 < chunks.length,
        (chunks.get ⟨i + 1, hi⟩).1 = (chunks.get ⟨i, Nat.lt_of_succ_lt hi⟩).2 + 1) := by
  refine ⟨by decide, ?_⟩
  by_cases hsmall : length < 4 * 1000 * 1000
  · refine ⟨[(0, length - 1)], ?_, by simp, by simp, by simp, ?_⟩
    · unfold calculate_chunks_length
      rw [if_pos hsmall]
      unfold checkedSub
      rw [if_pos h]
      rfl
    · intro i hi
      simp at hi
  · have hcpos : 0 < chunkCount length := chunkCount_pos length
    have hcle : chunkCount length ≤ length := chunkCount_le length hsmall
    have hcs1 : 1 ≤ length / chunkCount length := (Nat.one_le_div_iff hcpos).mpr hcle
    set count := chunkCount length with hcount
    set cs := length / chunkCount length with hcs
    refine ⟨(List.range count).map
      (fun i => (i * cs, if i = count - 1 then length - 1 else (i + 1) * cs - 1)),
      ?_, ?_, ?_, ?_, ?_⟩
    · rw [calculate_chunks_length_big length hsmall]
      refine optionMapAll_eq_some _ _ _ ?_
      intro a _
      by_cases ha : a = count - 1
      · rw [if_pos ha, if_pos ha]
        unfold checkedSub
        rw [if_pos h]
        rfl
      · rw [if_neg ha, if_neg ha]
        unfold checkedSub
        have : 1 ≤ (a + 1) * cs := by
          calc 1 = 1 * 1 := by omega
          _ ≤ (a + 1) * cs := Nat.mul_le_mul (by omega) hcs1
        rw [if_pos this]
        rfl
    · simpa using hcpos
    · intro h0
      simp [List.get_eq_getElem, List.getElem_map, List.getElem_range]
    · intro hl
      simp only [List.get_eq_getElem, List.length_map, List.length_range] at hl ⊢
      rw [List.getElem_map, List.getElem_range]
      rw [if_pos rfl]
    · intro i hi
      simp only [List.get_eq_getElem, List.length_map, List.length_range] at hi ⊢
      rw [List.getElem_map, List.getElem_range, List.getElem_map, List.getElem_range]
      have hne : i ≠ count - 1 := by omega
      rw [if_neg hne]
      have : 1 ≤ (i + 1) * cs := by
        calc 1 = 1 * 1 := by omega
        _ ≤ (i + 1) * cs := Nat.mul_le_mul (by omega) hcs1
      simp
      omega

/-- Witness for C10 at length 5_000_000. -/
theorem c10_chunks_total_and_partition_witness :
    1 ≤ 5000000 ∧
    (calculate_chunks_length 0 = none ∧
    ∃ chunks : List (Nat × Nat), calculate_chunks_length 5000000 = some chunks ∧
      0 < chunks.length ∧
      (∀ h0 : 0 < chunks.length, (chunks.get ⟨0, h0⟩).1 = 0) ∧
      (∀ hl : chunks.length - 1 < chunks.length,
        (chunks.get ⟨chunks.length - 1, hl⟩).2 = 5000000 - 1) ∧
      (∀ i, ∀ hi : i + 1 < chunks.length,
        (chunks.get ⟨i + 1, hi⟩).1 = (chunks.get ⟨i, Nat.lt_of_succ_lt hi⟩).2 + 1)) :=
  ⟨by decide, c10_chunks_total_and_partition 5000000 (by decide)⟩

/-- C7: the empty-list default and the claim's example evaluate as claimed
(Linux → disallow, Windows → allow), but the "rule matches iff all supplied
sub-predicates match" part fails: with `features {a:true, b:true}` and both
features enabled as `["b", "a"]`, `check_features` reuses one consumed
iterator over the enabled list across the two keys, so the rule does not
match and the verdict stays disallow, although every feature sub-predicate
matches the enabled set. -/
theorem c7_rule_evaluation_iterator_bug :
    check_allowed linuxPlatform [] [] = true ∧
    check_allowed linuxPlatform exampleRules [] = false ∧
    check_allowed windowsPlatform exampleRules [] = true ∧
    check_features twoFeatureRule ["b", "a"] = false ∧
    check_allowed linuxPlatform [twoFeatureRule] ["b", "a"] = false ∧
    check_features twoFeatureRule ["a", "b"] = true := by
  refine ⟨rfl, rfl, rfl, rfl, rfl, rfl⟩

theorem join_id_minLV (r : ResolvedVersion) (x : String) :
    (r.join_id x).minimum_launcher_version = r.minimum_launcher_version := by
  unfold ResolvedVersion.join_id; split <;> rfl

theorem join_release_time_minLV (r : ResolvedVersion) (x : Option String) :
    (r.join_release_time x).minimum_launcher_version = r.minimum_launcher_version := by
  unfold ResolvedVersion.join_release_time; split <;> rfl

theorem join_time_minLV (r : ResolvedVersion) (x : Option String) :
    (r.join_time x).minimum_launcher_version = r.minimum_launcher_version := by
  unfold ResolvedVersion.join_time; split <;> rfl

theorem join_logging_minLV (r : ResolvedVersion) (x : Option (List (String × Json))) :
    (r.join_logging x).minimum_launcher_version = r.minimum_launcher_version := by
  unfold ResolvedVersion.join_logging; cases x <;> rfl

theorem join_assets_minLV (r : ResolvedVersion) (x : Option String) :
    (r.join_assets x).minimum_launcher_version = r.minimum_launcher_version := by
  unfold ResolvedVersion.join_assets; split <;> rfl

theorem join_version_type_minLV (r : ResolvedVersion) (x : Option String) :
    (r.join_version_type x).minimum_launcher_version = r.minimum_launcher_version := by
  unfold ResolvedVersion.join_version_type; split <;> rfl

theorem join_main_class_minLV (r : ResolvedVersion) (x : Option String) :
    (r.join_main_class x).minimum_launcher_version = r.minimum_launcher_version := by
  unfold ResolvedVersion.join_main_class; split <;> rfl

theorem join_java_version_minLV (r : ResolvedVersion) (x : Option JavaVersion) :
    (r.join_java_version x).minimum_launcher_version = r.minimum_launcher_version := by
  unfold ResolvedVersion.join_java_version; cases x <;> rfl

theorem join_asset_index_minLV (r : ResolvedVersion) (x : Option AssetIndex) :
    (r.join_asset_index x).minimum_launcher_version = r.minimum_launcher_version := by
  unfold ResolvedVersion.join_asset_index; split <;> rfl

theorem join_downloads_minLV (r : ResolvedVersion) (x : Option (List (String × Download))) :
    (r.join_downloads x).minimum_launcher_version = r.minimum_launcher_version := by
  unfold ResolvedVersion.join_downloads; cases x <;> rfl

theorem join_arguments_minLV (r : ResolvedVersion) (p : PlatformInfo)
    (args : Option Arguments) (feats : List String) :
    (r.join_arguments p args feats).minimum_launcher_version =
      r.minimum_launcher_version := by
  unfold ResolvedVersion.join_arguments
  split
  · rfl
  · cases args <;> rfl

theorem mergePreArgs_minLV (r : ResolvedVersion) (v : Version) :
    (mergePreArgs r v).minimum_launcher_version =
      max (v.minimum_launcher_version.getD 0) r.minimum_launcher_version := by
  unfold mergePreArgs
  rw [join_downloads_minLV, join_asset_index_minLV, join_java_version_minLV,
    join_main_class_minLV, join_version_type_minLV, join_assets_minLV,
    join_logging_minLV, join_time_minLV, join_release_time_minLV]
  simp only [ResolvedVersion.join_minimum_launcher_version, join_id_minLV]

theorem mergeVersion_minLV (p : PlatformInfo) (feats : List String)
    (r : ResolvedVersion) (v : Version) :
    (mergeVersion p feats r v).minimum_launcher_version =
      max (v.minimum_launcher_version.getD 0) r.minimum_launcher_version := by
  unfold mergeVersion
  rw [join_arguments_minLV, mergePreArgs_minLV]

theorem mergeVersion_args_of_lt (p : PlatformInfo) (feats : List String)
    (r : ResolvedVersion) (v : Version)
    (h : max (v.minimum_launcher_version.getD 0) r.minimum_launcher_version < 21) :
    (mergeVersion p feats r v).arguments =
      { game := DEFAULT_GAME_ARGS, jvm := DEFAULT_JVM_ARGS } := by
  have hc : (mergePreArgs r v).minimum_launcher_version < 21 := by
    rw [mergePreArgs_minLV]; exact h
  unfold mergeVersion ResolvedVersion.join_arguments
  rw [if_pos hc]

theorem foldl_resolveStep_fst (p : PlatformInfo) (feats : List String) :
    ∀ (l : List Version) (a : ResolvedVersion) (b : List Json),
      (l.foldl (resolveStep p feats) (a, b)).1 = l.foldl (mergeVersion p feats) a := by
  intro l
  induction l with
  | nil => intro a b; rfl
  | cons v rest ih =>
    intro a b
    simp only [List.foldl_cons, resolveStep]
    exact ih _ _

theorem foldl_resolveStep_snd (p : PlatformInfo) (feats : List String) :
    ∀ (l : List Version) (a : ResolvedVersion) (b : List Json),
      (l.foldl (resolveStep p feats) (a, b)).2 = l.foldl libJoinStep b := by
  intro l
  induction l with
  | nil => intro a b; rfl
  | cons v rest ih =>
    intro a b
    simp only [List.foldl_cons, resolveStep]
    exact ih _ _

theorem foldl_libJoinStep_flatten :
    ∀ chain : List Version,
      chain.reverse.foldl libJoinStep [] =
        (chain.map fun v => v.libraries.getD []).flatten := by
  intro chain
  induction chain with
  | nil => rfl
  | cons v rest ih =>
    simp only [List.reverse_cons, List.foldl_append, List.foldl_cons, List.foldl_nil,
      List.map_cons, List.flatten_cons]
    rw [ih]
    unfold libJoinStep Libraries.join
    cases hv : v.libraries <;> simp [hv]

theorem resolveChain_ok_elim {p : PlatformInfo} {feats : List String}
    {self : Version} {ancestors : List Version} {r : ResolvedVersion}
    (hok : Version.resolveChain p self ancestors feats = .ok r) :
    ∃ libs, Libraries.to_resolved p
        ((self :: ancestors).reverse.foldl libJoinStep []) = .ok libs ∧
      r = { ((self :: ancestors).reverse.foldl (mergeVersion p feats)
              ResolvedVersion.default) with libraries := libs } := by
  simp only [Version.resolveChain] at hok
  rw [foldl_resolveStep_fst, foldl_resolveStep_snd] at hok
  split at hok
  · simp at hok
  · next libs heq =>
    split at hok
    · simp at hok
    · refine ⟨libs, heq, ?_⟩
      injection hok with h
      exact h.symm

/-- C2: for every inheritance chain whose resolved (max-merged)
`minimumLauncherVersion` is below 21, the resolved JVM and game argument
lists are exactly the hard-coded legacy defaults regardless of the argument
lists the descriptors contained, and the resolved JVM list is non-empty. -/
theorem c2_legacy_default_arguments (p : PlatformInfo) (feats : List String)
    (self : Version) (ancestors : List Version) (r : ResolvedVersion)
    (hok : Version.resolveChain p self ancestors feats = .ok r)
    (hlt : r.minimum_launcher_version < 21) :
    r.arguments.jvm = DEFAULT_JVM_ARGS ∧ r.arguments.game = DEFAULT_GAME_ARGS ∧
      r.arguments.jvm ≠ [] := by
  obtain ⟨libs, hto, hr⟩ := resolveChain_ok_elim hok
  have hrev : (self :: ancestors).reverse = ancestors.reverse ++ [self] := by simp
  rw [hrev, List.foldl_append, List.foldl_cons, List.foldl_nil] at hr
  subst hr
  have hlt2 : (mergeVersion p feats
      (List.foldl (mergeVersion p feats) ResolvedVersion.default ancestors.reverse)
      self).minimum_launcher_version < 21 := hlt
  rw [mergeVersion_minLV] at hlt2
  have hargs := mergeVersion_args_of_lt p feats
    (List.foldl (mergeVersion p feats) ResolvedVersion.default ancestors.reverse) self hlt2
  exact ⟨by rw [hargs], by rw [hargs], by rw [hargs]; simp [DEFAULT_JVM_ARGS]⟩

/-- Witness for C2 on the concrete chain `childVersion → rootVersion`
(resolved `minimumLauncherVersion` 14). -/
theorem c2_legacy_default_arguments_witness :
    ∃ r, Version.resolveChain linuxPlatform childVersion [rootVersion] [] = .ok r ∧
      r.minimum_launcher_version < 21 ∧
      (r.arguments.jvm = DEFAULT_JVM_ARGS ∧ r.arguments.game = DEFAULT_GAME_ARGS ∧
        r.arguments.jvm ≠ []) :=
  ⟨(Version.resolveChain linuxPlatform childVersion [rootVersion] []).toOption.get
      (by decide),
    rfl, by decide,
    c2_legacy_default_arguments linuxPlatform [] childVersion [rootVersion] _ rfl (by decide)⟩

/-- C3 counterexample: on the chain `childVersion → rootVersion` (root library
`g:a:1`, child library `g:b:1`) the resolved flattened list is child-first
`[g/b/…, g/a/…]`, not the claimed root-first `[g/a/…, g/b/…]`. -/
theorem c3_counterexample_root_not_first :
    (Version.resolveChain linuxPlatform childVersion [rootVersion] []).map
        (fun r => r.libraries.map fun l => l.download_info.path) =
      .ok ["g/b/1/b-1.jar", "g/a/1/a-1.jar"] ∧
    (["g/b/1/b-1.jar", "g/a/1/a-1.jar"] : List String) ≠
      ["g/a/1/a-1.jar", "g/b/1/b-1.jar"] :=
  ⟨rfl, by decide⟩

/-- C3 (amended): the resolved flattened libraries list is the concatenation
of the user-supplied descriptor's libraries first down to the root (deepest
ancestor) descriptor's libraries last (`Libraries::join` prepends each more
derived block), with the original order inside each descriptor preserved. -/
theorem c3_libraries_child_first (p : PlatformInfo) (feats : List String)
    (self : Version) (ancestors : List Version) (r : ResolvedVersion)
    (hok : Version.resolveChain p self ancestors feats = .ok r) :
    Libraries.to_resolved p
        (((self :: ancestors).map fun v => v.libraries.getD []).flatten) =
      .ok r.libraries := by
  obtain ⟨libs, hto, hr⟩ := resolveChain_ok_elim hok
  rw [foldl_libJoinStep_flatten] at hto
  subst hr
  simpa using hto

/-- Witness for the amended C3 on the concrete chain `childVersion → rootVersion`. -/
theorem c3_libraries_child_first_witness :
    ∃ r, Version.resolveChain linuxPlatform childVersion [rootVersion] [] = .ok r ∧
      Libraries.to_resolved linuxPlatform
          (((childVersion :: [rootVersion]).map fun v => v.libraries.getD []).flatten) =
        .ok r.libraries :=
  ⟨(Version.resolveChain linuxPlatform childVersion [rootVersion] []).toOption.get
      (by decide),
    rfl, c3_libraries_child_first linuxPlatform [] childVersion [rootVersion] _ rfl⟩

/-- C6 counterexample: with both markers containing `"1700000000"` and the
clock at `1700864000` (10 days later), no verification pass runs — the
marker is still honoured, where the claim requires it be treated as absent. -/
theorem c6_counterexample_stale_marker_honoured :
    (complete_files
        { assetsMarker := some "1700000000", librariesMarker := some "1700000000" }
        1700864000).assetsVerificationRan = false ∧
    (complete_files
        { assetsMarker := some "1700000000", librariesMarker := some "1700000000" }
        1700864000).librariesVerificationRan = false := by
  exact ⟨rfl, rfl⟩

/-- C6 (amended): a verification pass runs iff the corresponding marker file
is absent — the marker's content and the current time are ignored (the
result does not depend on `now` at all) — and a freshly written marker
contains the literal `"ok"`, an existing one being left unchanged. -/
theorem c6_marker_only_existence_checked (s : MarkerState) (now now2 : Nat) :
    (complete_files s now).assetsVerificationRan = s.assetsMarker.isNone ∧
    (complete_files s now).librariesVerificationRan = s.librariesMarker.isNone ∧
    complete_files s now = complete_files s now2 ∧
    (complete_files s now).finalState.assetsMarker =
      (if s.assetsMarker.isNone then some "ok" else s.assetsMarker) ∧
    (complete_files s now).finalState.librariesMarker =
      (if s.librariesMarker.isNone then some "ok" else s.librariesMarker) := by
  exact ⟨rfl, rfl, rfl, rfl, rfl⟩

/-- C9: a create against an empty slot completes (successfully or with an
error) and leaves its handle stored; any create against an occupied slot is
rejected with `AlreadyInstalling` and changes nothing; an arbitrary
cancel-free command sequence from an occupied slot answers
`AlreadyInstalling` to every command and leaves the slot occupied; cancel —
and only cancel — resets the slot to `None`, after which a create succeeds
again. -/
theorem c9_install_handle_never_cleared (h0 handle : Nat) (outcome : Bool)
    (ops : List InstallOp) (hnc : InstallOp.cancel ∉ ops) :
    installStep Option.none (.create handle outcome) =
      (.finished outcome, some handle) ∧
    installStep (some h0) (.create handle outcome) = (.alreadyInstalling, some h0) ∧
    (installRun (some h0) ops).1 =
      ops.map (fun _ => InstallReply.alreadyInstalling) ∧
    (installRun (some h0) ops).2 = some h0 ∧
    installStep (some h0) .cancel = (.cancelled, Option.none) ∧
    installStep ((installStep (some h0) InstallOp.cancel).2)
        (.create handle outcome) = (.finished outcome, some handle) := by
  refine ⟨rfl, rfl, ?_, ?_, rfl, rfl⟩ <;>
  · induction ops with
    | nil => rfl
    | cons op rest ih =>
      have hop : op ≠ InstallOp.cancel := fun hh => hnc (hh ▸ List.mem_cons_self op rest)
      have hrest : InstallOp.cancel ∉ rest := fun hh => hnc (List.mem_cons_of_mem op hh)
      cases op with
      | cancel => exact absurd rfl hop
      | create hh bb => simp [installRun, installStep, ih hrest]

/-- Witness for C9 on a concrete cancel-free command sequence. -/
theorem c9_install_handle_never_cleared_witness :
    InstallOp.cancel ∉ [InstallOp.create 2 true, InstallOp.create 3 false] ∧
    (installStep Option.none (.create 7 true) = (.finished true, some 7) ∧
    installStep (some 1) (.create 7 true) = (.alreadyInstalling, some 1) ∧
    (installRun (some 1) [InstallOp.create 2 true, InstallOp.create 3 false]).1 =
      [InstallOp.create 2 true, InstallOp.create 3 false].map
        (fun _ => InstallReply.alreadyInstalling) ∧
    (installRun (some 1) [InstallOp.create 2 true, InstallOp.create 3 false]).2 = some 1 ∧
    installStep (some 1) .cancel = (.cancelled, Option.none) ∧
    installStep ((installStep (some 1) InstallOp.cancel).2) (.create 7 true) =
      (.finished true, some 7)) :=
  ⟨by decide, c9_install_handle_never_cleared 1 7 true
    [InstallOp.create 2 true, InstallOp.create 3 false] (by decide)⟩

/-- C5 counterexample: a mismatching single-file download fails with
`Sha1Missmatch(url)` but the file at the target is NOT deleted — the fully
written body is still there. -/
theorem c5_counterexample_file_not_deleted :
    (download cxHash
        { supportsRange := Option.none, body := [1, 2, 3],
          rangeBody := fun _ _ => [] }
        { url := "u", file := "f", size_bytes := Option.none,
          checksum := .sha1 "00", dtype := .unknown }) =
      (.error (.sha1Missmatch "u"), some [1, 2, 3]) ∧
    (some [1, 2, 3] : Option (List Nat)) ≠ Option.none := by
  exact ⟨rfl, by decide⟩

/-- C5 (amended): whenever the computed digest does not match the recorded
checksum, the single-file `download` fails with `Sha1Missmatch(url)` (the
same error name covering Sha256 checksums too) and the downloaded file is
left at the target path with the full received body — it is not deleted. -/
theorem c5_mismatch_fails_keeps_file (m : HashModel) (srv : Server) (task : DownloadTask)
    (hmis : hasherVerify m srv.body task.checksum = false) :
    download m srv task = (.error (.sha1Missmatch task.url), some srv.body) := by
  simp [download, hmis]

/-- Witness for the amended C5. -/
theorem c5_mismatch_fails_keeps_file_witness :
    hasherVerify cxHash [5] (Checksum.sha1 "00") = false ∧
    download cxHash
        { supportsRange := Option.none, body := [5],
          rangeBody := fun _ _ => [] }
        { url := "w", file := "g", size_bytes := Option.none,
          checksum := .sha1 "00", dtype := .unknown } =
      (.error (.sha1Missmatch "w"), some [5]) :=
  ⟨by decide, c5_mismatch_fails_keeps_file cxHash _ _ (by decide)⟩

/-- C1 counterexample: `download_concurrent` on a task carrying a size, a
SHA-1 checksum `"00"` and a range-supporting server returns success while
the file written at the target hashes to `"ff" ≠ "00"` — the range-chunked
path performs no checksum verification at all. -/
theorem c1_counterexample_chunked_not_verified :
    (download_concurrent cxEnv cxCfg (fun _ => Option.none) [cxTask]).1 = true ∧
    (download_concurrent cxEnv cxCfg (fun _ => Option.none) [cxTask]).2 "f" =
      some (List.replicate 10 9) ∧
    cxTask.checksum = Checksum.sha1 "00" ∧
    cxHash.sha1Hex (List.replicate 10 9) ≠ "00" := by
  refine ⟨rfl, rfl, rfl, by decide⟩

/-- C1 (amended): on the sequential (non-chunked) executor path — taken
whenever the task carries no size or the server does not advertise
`Accept-Ranges: bytes` — success of the download executor guarantees the
written content's SHA-1 digest equals the recorded `h`; the range-chunked
path checks only per-chunk byte counts and gives no such guarantee. -/
theorem c1_sequential_success_verifies (m : HashModel) (srv : Server)
    (task : DownloadTask) (h : String) (content : List Nat)
    (hck : task.checksum = .sha1 h)
    (hseq : task.size_bytes = Option.none ∨ srv.supportsRange ≠ some true)
    (hok : inner_download_executer m srv task = .ok content) :
    m.sha1Hex content = h := by
  have hseqrun : seqDownloadExecuter m srv task = .ok content := by
    cases hsz : task.size_bytes with
    | none =>
      have hek : inner_download_executer m srv task = seqDownloadExecuter m srv task := by
        unfold inner_download_executer; rw [hsz]
      rw [hek] at hok
      exact hok
    | some length =>
      rcases hseq with hs | hs
      · rw [hsz] at hs; cases hs
      · have hb : (srv.supportsRange == some true) = false := by
          cases hsr : srv.supportsRange with
          | none => rfl
          | some b =>
            cases b with
            | true => exact absurd hsr hs
            | false => rfl
        have hek : inner_download_executer m srv task =
            (if (srv.supportsRange == some true) = true then
              inner_chunk_download_executer srv length
            else seqDownloadExecuter m srv task) := by
          unfold inner_download_executer; rw [hsz]
        rw [hek, hb] at hok
        simpa using hok
  simp only [seqDownloadExecuter] at hseqrun
  split at hseqrun
  · next hver =>
    injection hseqrun with hc
    subst hc
    rw [hck] at hver
    simpa [hasherVerify] using hver
  · simp at hseqrun

/-- Witness for the amended C1 on a concrete sequential-path task. -/
theorem c1_sequential_success_verifies_witness :
    ({ url := "u", file := "f", size_bytes := Option.none,
        checksum := .sha1 "ff", dtype := .unknown } : DownloadTask).checksum =
      Checksum.sha1 "ff" ∧
    (({ url := "u", file := "f", size_bytes := Option.none,
        checksum := .sha1 "ff", dtype := .unknown } : DownloadTask).size_bytes =
        Option.none ∨
      ({ supportsRange := Option.none, body := [4, 2], rangeBody := fun _ _ => [] }
          : Server).supportsRange ≠ some true) ∧
    inner_download_executer cxHash
        { supportsRange := Option.none, body := [4, 2], rangeBody := fun _ _ => [] }
        { url := "u", file := "f", size_bytes := Option.none,
          checksum := .sha1 "ff", dtype := .unknown } = .ok [4, 2] ∧
    cxHash.sha1Hex [4, 2] = "ff" :=
  ⟨rfl, Or.inl rfl, rfl,
    c1_sequential_success_verifies cxHash
      { supportsRange := Option.none, body := [4, 2], rangeBody := fun _ _ => [] }
      { url := "u", file := "f", size_bytes := Option.none,
        checksum := .sha1 "ff", dtype := .unknown }
      "ff" [4, 2] rfl (Or.inl rfl) rfl⟩

theorem formatGo_plain_cons (m : List (String × String)) (g : Bool) (c : Char)
    (l : List Char) (hc : c ≠ ('$')) :
    formatGo m g (c :: l) .plain = c :: formatGo m g l .plain := by
  simp [formatGo, hc]

theorem formatGo_append_plain (m : List (String × String)) (g : Bool) :
    ∀ l1 l2 : List Char, ('$') ∉ l1 →
      formatGo m g (l1 ++ l2) .plain = l1 ++ formatGo m g l2 .plain := by
  intro l1
  induction l1 with
  | nil => intro l2 _; rfl
  | cons c l1 ih =>
    intro l2 hd
    have hc : c ≠ ('$') := fun h => hd (h ▸ List.mem_cons_self c l1)
    rw [List.cons_append, formatGo_plain_cons m g c _ hc,
      ih l2 fun h => hd (List.mem_cons_of_mem c h)]
    rfl

theorem formatGo_key_phase (m : List (String × String)) (g : Bool) :
    ∀ name buf suf : List Char, (∀ c ∈ name, c ≠ ('}') ∧ c ≠ ('\n')) →
      formatGo m g (name ++ ('}') :: suf) (.key buf) =
        (replacementFor m g (String.mk (buf.reverse ++ name))).data ++
          formatGo m g suf .plain := by
  intro name
  induction name with
  | nil =>
    intro buf suf _
    simp [formatGo]
  | cons c name ih =>
    intro buf suf hall
    obtain ⟨hc1, hc2⟩ := hall c (List.mem_cons_self c name)
    have hstep : formatGo m g ((c :: name) ++ ('}') :: suf) (.key buf) =
        formatGo m g (name ++ ('}') :: suf) (.key (c :: buf)) := by
      simp [formatGo, hc1, hc2]
    rw [hstep, ih (c :: buf) suf fun x hx => hall x (List.mem_cons_of_mem c hx)]
    simp

/-- C8 counterexample: `${unknown}` under an empty substitution map is
replaced by the bare name `unknown` (`args.get(key).unwrap_or(&key)`), not
left unchanged as `${unknown}` as the claim states. -/
theorem c8_counterexample_unknown_key_stripped :
    format "${unknown}" [] false = "unknown" ∧
    ("unknown" : String) ≠ "${unknown}" := by
  exact ⟨rfl, by decide⟩

/-- C8 (amended): an occurrence `${name}` (name free of `}` and newline) is
replaced by the mapped value when `name` is a key of the map and by the bare
`name` (the `${` and `}` stripped) when it is not; either way the resulting
value is double-quoted when it contains a space and the argument is a game
argument, never for JVM arguments; literal text around the occurrence is
preserved and the rest of the template is processed the same way. -/
theorem c8_format_substitution (args : List (String × String)) (is_game_option : Bool)
    (pre name suf : String)
    (hpre : ('$') ∉ pre.data)
    (hname : ∀ c ∈ name.data, c ≠ ('}') ∧ c ≠ ('\n')) :
    format (pre ++ "$\x7b" ++ name ++ "\x7d" ++ suf) args is_game_option =
      pre ++
      (if ((args.lookup name).getD name).data.contains (' ') && is_game_option then
        "\"" ++ (args.lookup name).getD name ++ "\""
      else (args.lookup name).getD name) ++
      format suf args is_game_option := by
  have hdata : (pre ++ "$\x7b" ++ name ++ "\x7d" ++ suf).data =
      pre.data ++ (('$') :: ('{') :: (name.data ++ ('}') :: suf.data)) := by
    simp [String.data_append]
  unfold format
  rw [hdata, formatGo_append_plain args is_game_option pre.data _ hpre]
  have hdollar : formatGo args is_game_option
      (('$') :: ('{') :: (name.data ++ ('}') :: suf.data)) .plain =
      formatGo args is_game_option (name.data ++ ('}') :: suf.data) (.key []) := by
    simp [formatGo]
  rw [hdollar, formatGo_key_phase args is_game_option name.data [] suf.data hname]
  apply String.ext
  simp [String.data_append, format, replacementFor]

/-- Witness for the amended C8: `"x ${key} y"` with `key ↦ "a b"` as a game
argument becomes `"x \"a b\" y"`. -/
theorem c8_format_substitution_witness :
    (('$') ∉ ("x " : String).data) ∧
    (∀ c ∈ ("key" : String).data, c ≠ ('}') ∧ c ≠ ('\n')) ∧
    format ("x " ++ "$\x7b" ++ "key" ++ "\x7d" ++ " y") [("key", "a b")] true =
      "x " ++
      (if (([("key", "a b")].lookup "key").getD "key").data.contains (' ') && true then
        "\"" ++ ([("key", "a b")].lookup "key").getD "key" ++ "\""
      else ([("key", "a b")].lookup "key").getD "key") ++
      format " y" [("key", "a b")] true :=
  ⟨by decide, by decide,
    c8_format_substitution [("key", "a b")] true "x " "key" " y" (by decide) (by decide)⟩

end Conic
